import Mathlib

/-!
# Verification of the drosophila-dna-analysis pipeline

Shallow embedding of the core algorithmic functions of the repository:

* `scripts/quadruplex_search.py` — G-quadruplex pattern scanning and scoring
  (`find_gquadruplex_patterns`, `search_quadruplexes_in_sequence`,
  `calculate_gquad_score`);
* `scripts/smart_zhunt_parallel.py` / `scripts/zhunt_parallel.py` —
  genome partition splitting (`split_genome_by_chromosome`) and the
  bounded worker pool set-up in `main`;
* `extract_zdna_corrected.py` — predictor-output parsing
  (`extract_zdna_from_probability`);
* `scripts/analysis.py` — interval overlap query (`find_overlaps`);
* `integrated_analysis.py` — proximity colocalization
  (`analyze_colocalization`).

Modelling conventions: Python strings are Lean `String` or `List Char`;
Python floats are modelled in exact rational arithmetic (`ℚ`); Python
dictionaries are association lists with insertion-ordered replace-on-update
semantics; fallible code returns `Except`/`Option`.
-/

namespace DnaAnalysis

/-! ## Shared string helpers (Python `str.split()`, `str.strip()`, numbers) -/

/-- Python `s.strip()`: drop whitespace from both ends. -/
def pyStrip (s : String) : String :=
  String.mk
    (((s.toList.dropWhile Char.isWhitespace).reverse.dropWhile
      Char.isWhitespace).reverse)

/-- Python `s.startswith(c)` for a one-character needle. -/
def pyStartsWith (s : String) (c : Char) : Bool :=
  match s.toList with
  | [] => false
  | c' :: _ => c' = c

/-- Accumulator loop for whitespace splitting (`acc` holds the current
word reversed). -/
def splitWsAux : List Char → List Char → List String
  | [], acc => if acc = [] then [] else [String.mk acc.reverse]
  | c :: t, acc =>
      if Char.isWhitespace c then
        if acc = [] then splitWsAux t []
        else String.mk acc.reverse :: splitWsAux t []
      else splitWsAux t (c :: acc)

/-- Python `s.split()` with no argument: split on runs of whitespace,
dropping empty fields. -/
def splitWs (s : String) : List String :=
  splitWsAux s.toList []

/-- Leading count of characters satisfying `p`. -/
def countLeading (p : Char → Bool) : List Char → Nat
  | [] => 0
  | c :: t => if p c then countLeading p t + 1 else 0

/-- Lengths of the maximal runs of `p`-characters of a list, left to right,
with `cur` the length of the run currently being read.  This is the length
image of Python's `re.findall(r'X+', s)` for a character class `X`. -/
def runsAux (p : Char → Bool) : List Char → Nat → List Nat
  | [], cur => if cur = 0 then [] else [cur]
  | c :: t, cur =>
      if p c then runsAux p t (cur + 1)
      else if cur = 0 then runsAux p t 0
      else cur :: runsAux p t 0

/-- Lengths of the maximal runs of `p`-characters (`re.findall(r'X+', s)`
mapped through `len`). -/
def runsOf (p : Char → Bool) (l : List Char) : List Nat :=
  runsAux p l 0

/-- Parse a decimal digit string into a `Nat` (`none` if empty or not all
digits). -/
def parseNatDigits (l : List Char) : Option Nat :=
  if l ≠ [] ∧ l.all Char.isDigit then
    some (l.foldl (fun a c => a * 10 + (c.toNat - 48)) 0)
  else none

/-- Python `int(s)` on a whitespace-free token: optional sign followed by
decimal digits. -/
def parseInt? (s : String) : Option Int :=
  match s.toList with
  | '+' :: r => (parseNatDigits r).map Int.ofNat
  | '-' :: r => (parseNatDigits r).map (fun n => -(Int.ofNat n))
  | r => (parseNatDigits r).map Int.ofNat

/-- Mantissa of a float literal: `digits`, `digits.digits?` or `.digits`,
returned as an exact rational. -/
def parseMantissa (l : List Char) : Option ℚ :=
  match l.splitOn '.' with
  | [intPart] => (parseNatDigits intPart).map (fun n => (n : ℚ))
  | [intPart, fracPart] =>
      if intPart = [] ∧ fracPart = [] then none
      else
        let ip : Option Nat := if intPart = [] then some 0 else parseNatDigits intPart
        let fp : Option Nat := if fracPart = [] then some 0 else parseNatDigits fracPart
        match ip, fp with
        | some i, some f => some ((i : ℚ) + (f : ℚ) / ((10 : ℚ) ^ fracPart.length))
        | _, _ => none
  | _ => none

/-- Exponent part of a float literal: optional sign and digits. -/
def parseExponent (l : List Char) : Option Int :=
  match l with
  | '+' :: r => (parseNatDigits r).map Int.ofNat
  | '-' :: r => (parseNatDigits r).map (fun n => -(Int.ofNat n))
  | r => (parseNatDigits r).map Int.ofNat

/-- Python `float(s)` on a whitespace-free token, modelled as an exact
rational: optional sign, decimal mantissa, optional `e`/`E` exponent
(scientific notation).  The special tokens `inf`/`nan` are not modelled. -/
def parseFloat? (s : String) : Option ℚ :=
  let (sign, body) : ℚ × List Char :=
    match s.toList with
    | '+' :: r => (1, r)
    | '-' :: r => (-1, r)
    | r => (1, r)
  let bodyN := body.map (fun c => if c = 'E' then 'e' else c)
  match bodyN.splitOn 'e' with
  | [m] => (parseMantissa m).map (fun q => sign * q)
  | [m, x] =>
      match parseMantissa m, parseExponent x with
      | some q, some e => some (sign * q * (10 : ℚ) ^ e)
      | _, _ => none
  | _ => none

/-- Python's `round(x, 2)`: round to two decimal places, ties to even,
modelled over exact rationals. -/
def round2 (q : ℚ) : ℚ :=
  let x := q * 100
  let f : Int := Int.floor x
  let r : ℚ := x - (f : ℚ)
  let n : Int :=
    if r < 1/2 then f
    else if 1/2 < r then f + 1
    else if f % 2 = 0 then f else f + 1
  (n : ℚ) / 100

/-! ## `scripts/quadruplex_search.py` — scoring -/

/-- ASCII lowering of one character, as Python `str.lower()` acts on the
nucleotide alphabet. -/
def pyLowerChar (c : Char) : Char :=
  if 'A' ≤ c ∧ c ≤ 'Z' then Char.ofNat (c.toNat + 32) else c

/-- ASCII raising of one character, as Python `str.upper()` acts on the
nucleotide alphabet. -/
def pyUpperChar (c : Char) : Char :=
  if 'a' ≤ c ∧ c ≤ 'z' then Char.ofNat (c.toNat - 32) else c

/-- `calculate_gquad_score` (quadruplex_search.py:67-93).  G-content base,
a bonus when at least four maximal G-runs are present, and a 0.8 penalty
factor when the maximal `[ATC]+` stretches have average length above 5;
the result is rounded to two decimals.  Arithmetic is modelled exactly
over ℚ. -/
def calculate_gquad_score (sequence : List Char) : ℚ :=
  let gContent : ℚ := ((sequence.count 'G' : Nat) : ℚ) / (sequence.length : ℚ)
  let base := gContent * 100
  let gRuns := runsOf (fun c => c = 'G') sequence
  let withBonus :=
    if 4 ≤ gRuns.length then
      base + (gRuns.length : ℚ) * 10 + ((gRuns.sum : ℚ) / (gRuns.length : ℚ)) * 5
    else base
  let nonGStretches := runsOf (fun c => c = 'A' || c = 'T' || c = 'C') sequence
  let withPenalty :=
    if nonGStretches ≠ [] ∧ 5 < (nonGStretches.sum : ℚ) / (nonGStretches.length : ℚ) then
      withBonus * (8/10)
    else withBonus
  round2 withPenalty

/-- The scoring formula exactly as the specification's claim words it: the
same as `calculate_gquad_score` except that the "maximal consecutive non-G
stretches" are runs of ANY non-G character, so that the ambiguity code `N`
counts toward the non-G stretches. -/
def gquad_score_claimed (sequence : List Char) : ℚ :=
  let gContent : ℚ := ((sequence.count 'G' : Nat) : ℚ) / (sequence.length : ℚ)
  let base := gContent * 100
  let gRuns := runsOf (fun c => c = 'G') sequence
  let withBonus :=
    if 4 ≤ gRuns.length then
      base + (gRuns.length : ℚ) * 10 + ((gRuns.sum : ℚ) / (gRuns.length : ℚ)) * 5
    else base
  let nonGStretches := runsOf (fun c => !(c = 'G')) sequence
  let withPenalty :=
    if nonGStretches ≠ [] ∧ 5 < (nonGStretches.sum : ℚ) / (nonGStretches.length : ℚ) then
      withBonus * (8/10)
    else withBonus
  round2 withPenalty

/-- The amended scoring formula: as claimed, but the non-G stretches are
the maximal runs of characters that are neither `G` nor the ambiguity code
`N` (over the scanner's alphabet these are exactly the `[ATC]+` runs of
the source). -/
def gquad_score_amended (sequence : List Char) : ℚ :=
  let gContent : ℚ := ((sequence.count 'G' : Nat) : ℚ) / (sequence.length : ℚ)
  let base := gContent * 100
  let gRuns := runsOf (fun c => c = 'G') sequence
  let withBonus :=
    if 4 ≤ gRuns.length then
      base + (gRuns.length : ℚ) * 10 + ((gRuns.sum : ℚ) / (gRuns.length : ℚ)) * 5
    else base
  let nonGStretches := runsOf (fun c => !(c = 'G') && !(c = 'N')) sequence
  let withPenalty :=
    if nonGStretches ≠ [] ∧ 5 < (nonGStretches.sum : ℚ) / (nonGStretches.length : ℚ) then
      withBonus * (8/10)
    else withBonus
  round2 withPenalty

/-! ## `scripts/quadruplex_search.py` — pattern matching

The patterns built by `find_gquadruplex_patterns` are of the fixed shape
`G{k,}[ATCGN]{1,L}G{k,}[ATCGN]{1,L}G{k,}[ATCGN]{1,L}G{k,}`.  We embed a
backtracking matcher for exactly this family of patterns, with Python
`re` semantics: leftmost match, greedy quantifiers with backtracking,
and `finditer`'s non-overlapping scan that resumes at the end of each
match (advancing one position after a zero-width match). -/

/-- One element of a quadruplex pattern: a greedy `G{k,}` run or a greedy
`[ATCGN]{1,m}` loop. -/
inductive PatElem where
  | gRun (minLen : Nat)
  | loop (maxLen : Nat)
deriving DecidableEq

/-- The loop character class `[ATCGN]`. -/
def isLoopChar (c : Char) : Bool :=
  c = 'A' || c = 'T' || c = 'C' || c = 'G' || c = 'N'

/-- Candidate take-lengths for a greedy quantifier, longest first:
`[hi, hi-1, …, lo]` (empty when `hi < lo`). -/
def descLens (lo hi : Nat) : List Nat :=
  (List.range (hi + 1 - lo)).map (fun j => hi - j)

/-- Minimal number of characters a pattern element may consume. -/
def PatElem.lo : PatElem → Nat
  | .gRun k => k
  | .loop _ => 1

/-- Maximal number of characters a pattern element may consume at the
front of `s`. -/
def PatElem.hi : PatElem → List Char → Nat
  | .gRun _, s => countLeading (fun c => c = 'G') s
  | .loop m, s => min m (countLeading isLoopChar s)

/-- Backtracking match of a pattern against a prefix of `s`: the length
consumed by the leftmost-greedy match, or `none`.  Greedy quantifiers try
the longest feasible take first and backtrack downward, exactly as
Python's `re` engine resolves this pattern family. -/
def tryMatch : List PatElem → List Char → Option Nat
  | [], _ => some 0
  | e :: rest, s =>
      (descLens e.lo (e.hi s)).findSome? (fun i =>
        if e.lo ≤ i then (tryMatch rest (s.drop i)).map (fun n => i + n)
        else none)

/-- `re.finditer` over list positions: at suffix `s` (absolute position
`p`), emit `(start, stop, matchedText)` for each non-overlapping leftmost
match, resuming after each match (or one position further after a
zero-width match). -/
def finditer (pat : List PatElem) (s : List Char) (p : Nat) :
    List (Nat × Nat × List Char) :=
  match s with
  | [] =>
      match tryMatch pat [] with
      | some _ => [(p, p, [])]
      | none => []
  | c :: t =>
      match tryMatch pat (c :: t) with
      | some 0 => (p, p, []) :: finditer pat t (p + 1)
      | some (n + 1) =>
          (p, p + (n + 1), (c :: t).take (n + 1)) ::
            finditer pat ((c :: t).drop (n + 1)) (p + (n + 1))
      | none => finditer pat t (p + 1)
  termination_by s.length
  decreasing_by
    all_goals simp
    all_goals omega

/-- `find_gquadruplex_patterns` (quadruplex_search.py:17-31): one pattern
per G-run class `k ∈ [minRunLength, 7)`, paired with `k`. -/
def find_gquadruplex_patterns (minRunLength maxLoopLength : Nat) :
    List (List PatElem × Nat) :=
  (List.range' minRunLength (7 - minRunLength)).map (fun k =>
    ([.gRun k, .loop maxLoopLength, .gRun k, .loop maxLoopLength,
      .gRun k, .loop maxLoopLength, .gRun k], k))

/-- One scored G-quadruplex candidate row (quadruplex_search.py:52-62).
The Python dict key `end` is a reserved word in Lean and is rendered
`stop`. -/
structure GQuadCandidate where
  chromosome : String
  start : Nat
  stop : Nat
  length : Nat
  sequence : List Char
  gRunLength : Nat
  gContent : ℚ
  gcContent : ℚ
  score : ℚ
deriving DecidableEq

/-- `search_quadruplexes_in_sequence` (quadruplex_search.py:33-65): upper-
case the sequence, then for every pattern collect all `finditer` matches
as scored candidate rows. -/
def search_quadruplexes_in_sequence (seq : List Char)
    (patterns : List (List PatElem × Nat)) (chromosomeName : String) :
    List GQuadCandidate :=
  let sequence := seq.map pyUpperChar
  patterns.flatMap (fun pk =>
    (finditer pk.1 sequence 0).map (fun m =>
      let matched := m.2.2
      { chromosome := chromosomeName
        start := m.1
        stop := m.2.1
        length := m.2.1 - m.1
        sequence := matched
        gRunLength := pk.2
        gContent := ((matched.count 'G' : Nat) : ℚ) / (matched.length : ℚ)
        gcContent := ((matched.count 'G' + matched.count 'C' : Nat) : ℚ) /
          (matched.length : ℚ)
        score := calculate_gquad_score matched }))

/-! ## `extract_zdna_corrected.py` — predictor-output parsing -/

/-- One extracted Z-DNA structure record
(extract_zdna_corrected.py:44-51). -/
structure ZdnaStruct where
  position : Int
  zScore : ℚ
  score1 : ℚ
  score2 : ℚ
  sequence : String
  length : Nat
deriving DecidableEq

/-- The per-line body of `extract_zdna_from_probability`
(extract_zdna_corrected.py:22-56): strip; skip blank and `#` lines; split
on whitespace; skip lines with fewer than five fields; parse
`position score1 score2 z_score sequence`; any parse failure skips the
line; keep the record only when `minZscore ≤ z_score ≤ maxZscore`
(both bounds inclusive). -/
def parseProbLine (minZscore maxZscore : ℚ) (raw : String) : Option ZdnaStruct :=
  let line := pyStrip raw
  if line = "" || pyStartsWith line '#' then none
  else
    match splitWs line with
    | p0 :: p1 :: p2 :: p3 :: p4 :: _ =>
        match parseInt? p0, parseFloat? p1, parseFloat? p2, parseFloat? p3 with
        | some position, some score1, some score2, some zScore =>
            if minZscore ≤ zScore ∧ zScore ≤ maxZscore then
              some ⟨position, zScore, score1, score2, p4, p4.length⟩
            else none
        | _, _, _, _ => none
    | _ => none

/-- The enumerate-and-append loop of `extract_zdna_from_probability`,
threading Python's 1-based line counter (which only limits warning
output and never affects the returned records). -/
def extractLoop (minZscore maxZscore : ℚ) : List String → Nat → List ZdnaStruct
  | [], _ => []
  | raw :: rest, lineNum =>
      match parseProbLine minZscore maxZscore raw with
      | some r => r :: extractLoop minZscore maxZscore rest (lineNum + 1)
      | none => extractLoop minZscore maxZscore rest (lineNum + 1)

/-- `extract_zdna_from_probability` (extract_zdna_corrected.py:11-59).
The file is `none` when missing (`os.path.exists` fails ⇒ return the
empty list), otherwise the list of its raw lines. -/
def extract_zdna_from_probability (file? : Option (List String))
    (minZscore maxZscore : ℚ) : List ZdnaStruct :=
  match file? with
  | none => []
  | some lines => extractLoop minZscore maxZscore lines 1

/-! ## `scripts/smart_zhunt_parallel.py` — partition splitting -/

/-- Insert-or-replace on an insertion-ordered association list: the
semantics of `d[k] = v` on a Python `dict` (an existing key keeps its
position, its value is replaced), and likewise of rewriting an existing
file on the modelled file system. -/
def dictInsert (m : List (String × String)) (k v : String) :
    List (String × String) :=
  if m.any (fun p => p.1 = k) then
    m.map (fun p => if p.1 = k then (k, v) else p)
  else m ++ [(k, v)]

/-- State of the split loop of `split_genome_by_chromosome`
(smart_zhunt_parallel.py:101-141): the written files (path ↦ content),
the `chromosomes` dict (name ↦ path), and the current header/sequence
accumulator. -/
structure SplitState where
  files : List (String × String)
  chromosomes : List (String × String)
  currentChr : Option String
  currentSeq : List String
deriving DecidableEq

/-- Result of a split: the written per-chromosome files and the returned
`chromosomes` mapping. -/
structure SplitResult where
  files : List (String × String)
  chromosomes : List (String × String)
deriving DecidableEq

/-- Output path `output_dir / f"{chr}.fa"`. -/
def fastaPath (outputDir chrName : String) : String :=
  outputDir ++ "/" ++ chrName ++ ".fa"

/-- Flush the accumulated chromosome, if any: write
`>{chr}\n{joined sequence}\n` to `{chr}.fa` and record the path in the
`chromosomes` dict (smart_zhunt_parallel.py:117-123 and 132-138). -/
def writeCurrent (outputDir : String) (st : SplitState) : SplitState :=
  match st.currentChr with
  | none => st
  | some chrName =>
      let path := fastaPath outputDir chrName
      let content := ">" ++ chrName ++ "\n" ++ String.join st.currentSeq ++ "\n"
      { st with
        files := dictInsert st.files path content
        chromosomes := dictInsert st.chromosomes chrName path }

/-- One iteration of the line loop (smart_zhunt_parallel.py:113-129):
strip the line; on a `>` header, flush the previous chromosome and start
a new one named by the first whitespace token after `>` (a bare `>` line
raises `IndexError` in the source, modelled as an error); otherwise
append the stripped line to the current sequence accumulator. -/
def splitStep (outputDir : String) (st : SplitState) (rawLine : String) :
    Except String SplitState :=
  let line := pyStrip rawLine
  if pyStartsWith line '>' then
    let st' := writeCurrent outputDir st
    match splitWs (line.drop 1) with
    | [] => .error "IndexError"
    | name :: _ => .ok { st' with currentChr := some name, currentSeq := [] }
  else
    .ok { st with currentSeq := st.currentSeq ++ [line] }

/-- The line loop followed by the final flush
(smart_zhunt_parallel.py:113-138). -/
def splitLines (outputDir : String) : List String → SplitState →
    Except String SplitState
  | [], st => .ok (writeCurrent outputDir st)
  | l :: rest, st =>
      match splitStep outputDir st l with
      | .ok st' => splitLines outputDir rest st'
      | .error e => .error e

/-- `split_genome_by_chromosome` (smart_zhunt_parallel.py:101-141),
taking the input file as its list of raw lines. -/
def split_genome_by_chromosome (fastaLines : List String)
    (outputDir : String) : Except String SplitResult :=
  (splitLines outputDir fastaLines ⟨[], [], none, []⟩).map
    (fun st => ⟨st.files, st.chromosomes⟩)

/-! ## `scripts/smart_zhunt_parallel.py` — worker pool set-up -/

/-- The size filter of `main` (smart_zhunt_parallel.py:281-287): keep
only partitions whose file size exceeds 1 MB (`size/(1024*1024) > 1.0`,
i.e. more than 1048576 bytes); partitions carry their byte size. -/
def largeFilter (partitions : List (String × Nat)) : List (String × Nat) :=
  partitions.filter (fun p => 1048576 < p.2)

/-- `max_workers = min(len(large_chromosomes), psutil.cpu_count())`
(smart_zhunt_parallel.py:296). -/
def smartMaxWorkers (partitionCount cpuCount : Nat) : Nat :=
  min partitionCount cpuCount

/-- `concurrent.futures.ThreadPoolExecutor(max_workers=n)` raises
`ValueError("max_workers must be greater than 0")` when `n ≤ 0`;
otherwise all submitted tasks run and their results are collected
(smart_zhunt_parallel.py:308-318).  The worker body (launching the
external predictor) is abstracted as the function argument. -/
def threadPoolRun (maxWorkers : Nat) (tasks : List α) (work : α → β) :
    Except String (List β) :=
  if maxWorkers = 0 then .error "max_workers must be greater than 0"
  else .ok (tasks.map work)

/-- The pool set-up and run of `main` (smart_zhunt_parallel.py:281-318):
filter small partitions, compute `max_workers`, then run every remaining
partition through the executor. -/
def smart_zhunt_pool (partitions : List (String × Nat)) (cpuCount : Nat)
    (work : String × Nat → β) : Except String (List β) :=
  let large := largeFilter partitions
  threadPoolRun (smartMaxWorkers large.length cpuCount) large work

/-- The pool set-up of `zhunt_parallel.py` (lines 146-165): the same size
filter, with `max_workers = min(4, len(large_chromosomes))`. -/
def zhunt_parallel_pool (partitions : List (String × Nat))
    (work : String × Nat → β) : Except String (List β) :=
  let large := largeFilter partitions
  threadPoolRun (min 4 large.length) large work

/-! ## `scripts/analysis.py` — interval overlap -/

/-- A feature or region row with `chromosome`, `start`, `end` columns
(the key `end` is reserved in Lean and rendered `stop`). -/
structure IntervalRow where
  chromosome : String
  start : Int
  stop : Int
deriving DecidableEq

/-- The pair test of `find_overlaps` (analysis.py:108-109): same
chromosome and `not (feature.end < region.start or
feature.start > region.end)`. -/
def overlapTest (feature region : IntervalRow) : Bool :=
  feature.chromosome == region.chromosome &&
    !(decide (feature.stop < region.start) || decide (feature.start > region.stop))

/-- `find_overlaps` (analysis.py:100-130): the nested loop over features
and regions, emitting one (feature, region) pair per passing test. -/
def find_overlaps (features regions : List IntervalRow) :
    List (IntervalRow × IntervalRow) :=
  features.flatMap (fun f =>
    (regions.filter (fun r => overlapTest f r)).map (fun r => (f, r)))

/-- Whether two half-open intervals `[start, stop)` share a position —
the semantics the specification claims for `find_overlaps`. -/
def halfOpenOverlap (feature region : IntervalRow) : Prop :=
  feature.chromosome = region.chromosome ∧
    feature.start < region.stop ∧ region.start < feature.stop

instance (f r : IntervalRow) : Decidable (halfOpenOverlap f r) := by
  unfold halfOpenOverlap
  infer_instance

/-! ## `integrated_analysis.py` — proximity colocalization -/

/-- A G-quadruplex row as consumed by `analyze_colocalization`
(chromosome, start position, matched sequence). -/
structure G4Row where
  chromosome : String
  position : Int
  sequence : String
deriving DecidableEq

/-- A Z-DNA row as consumed by `analyze_colocalization`. -/
structure ZdnaRow where
  chromosome : String
  position : Int
  sequence : String
  zscore : ℚ
deriving DecidableEq

/-- One emitted colocalization pair (integrated_analysis.py:115-123). -/
structure ColocPair where
  chromosome : String
  g4Position : Int
  zdnaPosition : Int
  distance : Int
  g4Sequence : String
  zdnaSequence : String
  zdnaZscore : ℚ
deriving DecidableEq

/-- The pair constructed for a `(g4, zdna)` hit
(integrated_analysis.py:114-123). -/
def mkColocPair (g : G4Row) (z : ZdnaRow) : ColocPair :=
  ⟨g.chromosome, g.position, z.position, |z.position - g.position|,
    g.sequence, z.sequence, z.zscore⟩

/-- `analyze_colocalization` (integrated_analysis.py:84-131), restricted
to its emitted pair list: for each G4 row, select the Z-DNA rows on the
same chromosome with `abs(zdna_pos - g4_pos) <= window` and emit one pair
per hit; with either input empty the function returns no pairs. -/
def analyze_colocalization (g4Data : List G4Row) (zdnaData : List ZdnaRow)
    (window : Int) : List ColocPair :=
  if zdnaData.isEmpty || g4Data.isEmpty then []
  else
    g4Data.flatMap (fun g =>
      ((zdnaData.filter (fun z =>
          z.chromosome == g.chromosome &&
            decide (|z.position - g.position| ≤ window))).map
        (fun z => mkColocPair g z)))

/-! ## Helper lemmas -/

theorem toNat_ofNat_of_valid (n : Nat) (h : n < 55296) :
    (Char.ofNat n).toNat = n := by
  unfold Char.ofNat
  rw [dif_pos (Or.inl h)]
  simp [Char.ofNatAux, Char.toNat, UInt32.toNat, BitVec.toNat_ofNat]

/-- `≤` on characters is `≤` of their numeric codes. -/
theorem char_le_iff_toNat {a b : Char} : a ≤ b ↔ a.toNat ≤ b.toNat := by
  rw [Char.le_def]
  exact Iff.rfl

/-- Uppercasing agrees on a character and its lowercased image. -/
theorem pyUpperChar_pyLowerChar (c : Char) :
    pyUpperChar (pyLowerChar c) = pyUpperChar c := by
  unfold pyLowerChar pyUpperChar
  by_cases hA : 'A' ≤ c ∧ c ≤ 'Z'
  · rw [if_pos hA]
    have hv : c.toNat < 91 ∧ 65 ≤ c.toNat := by
      rcases hA with ⟨h1, h2⟩
      rw [char_le_iff_toNat] at h1 h2
      constructor
      · simpa using Nat.lt_succ_of_le h2
      · simpa using h1
    have hval : (Char.ofNat (c.toNat + 32)).toNat = c.toNat + 32 :=
      toNat_ofNat_of_valid _ (by omega)
    have h97 : ('a' : Char).toNat = 97 := rfl
    have h122 : ('z' : Char).toNat = 122 := rfl
    have hlow : 'a' ≤ Char.ofNat (c.toNat + 32) ∧ Char.ofNat (c.toNat + 32) ≤ 'z' := by
      constructor <;>
        · rw [char_le_iff_toNat, hval]
          omega
    rw [if_pos hlow, hval]
    have hnotlow : ¬ ('a' ≤ c ∧ c ≤ 'z') := by
      rintro ⟨h1, _⟩
      rw [char_le_iff_toNat] at h1
      simp at h1
      omega
    rw [if_neg hnotlow]
    have hsub : c.toNat + 32 - 32 = c.toNat := by omega
    rw [hsub]
    apply Char.eq_of_val_eq
    apply UInt32.ext
    exact toNat_ofNat_of_valid _ (by omega)
  · rw [if_neg hA]

/-- The split loop leaves an all-empty state untouched when no line is a
header: every line is merely appended to the sequence accumulator and the
final flush writes nothing. -/
theorem splitLines_no_header (outputDir : String) (lines : List String) :
    ∀ currentSeq : List String, (∀ l ∈ lines, pyStartsWith (pyStrip l) '>' = false) →
      splitLines outputDir lines ⟨[], [], none, currentSeq⟩ =
        .ok ⟨[], [], none, currentSeq ++ lines.map pyStrip⟩ := by
  induction lines with
  | nil => intro cs _; simp [splitLines, writeCurrent]
  | cons l rest ih =>
      intro cs h
      have hl : pyStartsWith (pyStrip l) '>' = false := h l (List.mem_cons_self l rest)
      have hrest : ∀ l' ∈ rest, pyStartsWith (pyStrip l') '>' = false :=
        fun l' hl' => h l' (List.mem_cons_of_mem l hl')
      simp only [splitLines, splitStep, hl, Bool.false_eq_true, if_neg]
      rw [if_neg (by simp [hl])]
      simpa [List.append_assoc] using ih (cs ++ [pyStrip l]) hrest

/-! ## Claim theorems -/

/-- **C7** (confirmed). Scanning a sequence and scanning its all-lowercase
equivalent yield identical candidate lists: the scanner first uppercases
the input (quadruplex_search.py:38), and uppercasing a lowercased string
gives the uppercased original, so the spans, matched texts and scores all
coincide. -/
theorem search_lowercase_invariant (seq : List Char)
    (patterns : List (List PatElem × Nat)) (chromosomeName : String) :
    search_quadruplexes_in_sequence (seq.map pyLowerChar) patterns chromosomeName =
      search_quadruplexes_in_sequence seq patterns chromosomeName := by
  unfold search_quadruplexes_in_sequence
  have hcomp : pyUpperChar ∘ pyLowerChar = pyUpperChar :=
    funext pyUpperChar_pyLowerChar
  rw [List.map_map, hcomp]

/-- **C1** counterexample: feature `[100,200)` and region `[200,300)` do
NOT share a position under half-open semantics, yet `find_overlaps`
reports them as overlapping — the source test (analysis.py:109) keeps a
pair whose feature end equals the region start. -/
theorem find_overlaps_boundary_touch_reported :
    (⟨"chr2L", 100, 200⟩, ⟨"chr2L", 200, 300⟩) ∈
        find_overlaps [⟨"chr2L", 100, 200⟩] [⟨"chr2L", 200, 300⟩] ∧
      ¬ halfOpenOverlap ⟨"chr2L", 100, 200⟩ ⟨"chr2L", 200, 300⟩ := by
  decide

/-- **C1** amended: `find_overlaps` treats intervals as CLOSED: a
(feature, region) pair is reported iff the two rows are on the same
chromosome and `region.start ≤ feature.end ∧ feature.start ≤ region.end`;
in particular touching boundaries (feature end = region start) are
included. -/
theorem find_overlaps_closed_interval_semantics
    (features regions : List IntervalRow) (f r : IntervalRow) :
    (f, r) ∈ find_overlaps features regions ↔
      f ∈ features ∧ r ∈ regions ∧ f.chromosome = r.chromosome ∧
        r.start ≤ f.stop ∧ f.start ≤ r.stop := by
  unfold find_overlaps overlapTest
  simp only [List.mem_flatMap, List.mem_map, List.mem_filter, Prod.mk.injEq,
    Bool.and_eq_true, Bool.not_eq_true', Bool.or_eq_false_iff,
    decide_eq_false_iff_not, beq_iff_eq, not_lt, not_le]
  constructor
  · rintro ⟨a, ha, b, ⟨hb, hchr, h1, h2⟩, rfl, rfl⟩
    exact ⟨ha, hb, hchr, h1, h2⟩
  · rintro ⟨ha, hb, hchr, h1, h2⟩
    exact ⟨f, ha, r, ⟨hb, hchr, h1, h2⟩, rfl, rfl⟩

/-- Witness for the amended C1 theorem: feature `[100,200]` and region
`[150,250]` on the same chromosome are reported. -/
theorem find_overlaps_closed_interval_semantics_witness :
    (⟨"chr2L", 100, 200⟩, ⟨"chr2L", 150, 250⟩) ∈
      find_overlaps [(⟨"chr2L", 100, 200⟩ : IntervalRow)] [⟨"chr2L", 150, 250⟩] :=
  (find_overlaps_closed_interval_semantics _ _ _ _).mpr
    ⟨by decide, by decide, rfl, by decide, by decide⟩

/-- **C2** counterexample: with one partition below the 1 MB size
threshold there are zero partitions to run, `max_workers` evaluates to 0
and the executor construction raises `ValueError` — the pool does NOT
return an empty `WorkerResult` list. -/
theorem smart_pool_zero_partitions_error :
    smart_zhunt_pool [("chr4", 500)] 8 Prod.fst =
        Except.error "max_workers must be greater than 0" ∧
      smart_zhunt_pool [("chr4", 500)] 8 Prod.fst ≠
        Except.ok ([] : List String) ∧
      zhunt_parallel_pool [("chr4", 500)] Prod.fst =
        Except.error "max_workers must be greater than 0" := by
  refine ⟨rfl, ?_, rfl⟩
  intro h
  simp [smart_zhunt_pool, largeFilter, smartMaxWorkers, threadPoolRun] at h

/-- **C2** amended: with zero runnable partitions the pool set-up fails
with `ValueError("max_workers must be greater than 0")` instead of
returning an empty list; with at least one partition and one CPU, all
partitions run and the concurrency bound `min(partitionCount, cpuCount)`
coincides with `max(1, min(cpuCount, partitionCount))`. -/
theorem smart_pool_bound_and_zero_error (partitions : List (String × Nat))
    (cpuCount : Nat) (work : String × Nat → β) (hcpu : 1 ≤ cpuCount) :
    ((largeFilter partitions).length = 0 →
        smart_zhunt_pool partitions cpuCount work =
          Except.error "max_workers must be greater than 0") ∧
      (1 ≤ (largeFilter partitions).length →
        smart_zhunt_pool partitions cpuCount work =
            Except.ok ((largeFilter partitions).map work) ∧
          smartMaxWorkers (largeFilter partitions).length cpuCount =
            max 1 (min cpuCount (largeFilter partitions).length)) := by
  simp only [smart_zhunt_pool, threadPoolRun, smartMaxWorkers]
  constructor
  · intro h
    rw [h]
    simp
  · intro h
    refine ⟨?_, ?_⟩
    · rw [if_neg (by omega)]
    · omega

/-- Witness for the amended C2 theorem at one 2 MB partition and 4 CPUs. -/
theorem smart_pool_bound_and_zero_error_witness :
    1 ≤ 4 ∧ smart_zhunt_pool [("chr2L", 2000000)] 4 Prod.fst =
      Except.ok ((largeFilter [("chr2L", 2000000)]).map Prod.fst) :=
  ⟨by decide,
    ((smart_pool_bound_and_zero_error [("chr2L", 2000000)] 4 Prod.fst
      (by decide)).2 (by decide)).1⟩

/-- **C3** counterexample: on an input with sequence data but no `>`
header line, `split_genome_by_chromosome` succeeds and returns an empty
mapping — it raises no `InputError` (indeed no error at all). -/
theorem split_headerless_returns_empty_ok :
    split_genome_by_chromosome ["ACGT", "TTTT"] "z_hunt_results" =
      Except.ok ⟨[], []⟩ := by
  rfl

/-- **C3** amended: for every input that is empty or contains no sequence
header line, `split_genome_by_chromosome` succeeds and returns an empty
mapping (writing no file); it never raises an `InputError` for such
input. -/
theorem split_headerless_empty_mapping (lines : List String)
    (outputDir : String)
    (h : ∀ l ∈ lines, pyStartsWith (pyStrip l) '>' = false) :
    split_genome_by_chromosome lines outputDir = Except.ok ⟨[], []⟩ := by
  unfold split_genome_by_chromosome
  rw [splitLines_no_header outputDir lines [] h]
  rfl

/-- Witness for the amended C3 theorem on a headerless input. -/
theorem split_headerless_empty_mapping_witness :
    split_genome_by_chromosome ["ACGT"] "temp_chromosomes" =
      Except.ok ⟨[], []⟩ :=
  split_headerless_empty_mapping ["ACGT"] "temp_chromosomes" (by decide)

/-- The extraction loop ignores its line counter: it returns one record
per line accepted by `parseProbLine`, in order. -/
theorem extractLoop_eq_filterMap (minZscore maxZscore : ℚ) (lines : List String) :
    ∀ lineNum : Nat, extractLoop minZscore maxZscore lines lineNum =
      lines.filterMap (parseProbLine minZscore maxZscore) := by
  induction lines with
  | nil => intro n; rfl
  | cons l rest ih =>
      intro n
      simp only [extractLoop, List.filterMap_cons]
      cases parseProbLine minZscore maxZscore l with
      | none => exact ih (n + 1)
      | some r => rw [ih (n + 1)]

set_option maxRecDepth 2000 in
/-- **C5** (confirmed). The predictor-output parser returns exactly one
record per well-formed line whose quality metric lies in
`[minZscore, maxZscore]` (both bounds inclusive), skipping malformed
lines and continuing to end of file; a missing file yields the empty
list.  The concrete file contains a comment, a malformed line, three
valid in-range lines (two exactly on the boundaries) and two out-of-range
lines, and yields exactly the three in-range records. -/
theorem extract_zdna_parse_contract (lines : List String)
    (minZscore maxZscore : ℚ) :
    extract_zdna_from_probability none minZscore maxZscore = [] ∧
      extract_zdna_from_probability (some lines) minZscore maxZscore =
        lines.filterMap (parseProbLine minZscore maxZscore) ∧
      extract_zdna_from_probability (some
          ["# hdr",
           "10 0 1 300 AC",
           "x y",
           "20 0 1 350.5 CG",
           "30 0 1 400 GC",
           "40 0 1 250 AT",
           "50 0 1 450 TA"]) 300 400 =
        [⟨10, 300, 0, 1, "AC", 2⟩,
         ⟨20, 701/2, 0, 1, "CG", 2⟩,
         ⟨30, 400, 0, 1, "GC", 2⟩] := by
  refine ⟨rfl, extractLoop_eq_filterMap minZscore maxZscore lines 1, ?_⟩
  with_unfolding_all decide

/-- **C10** (confirmed). A line with fewer than five whitespace-separated
fields yields no record, even when all its numeric fields parse — so a
four-numeric-column artifact layout yields an empty result. -/
theorem parse_line_requires_five_fields :
    (∀ (minZscore maxZscore : ℚ) (raw : String),
        (splitWs (pyStrip raw)).length < 5 →
          parseProbLine minZscore maxZscore raw = none) ∧
      extract_zdna_from_probability
          (some ["100 0.5 0.6 350.0", "200 0.7 0.8 360.0"]) 300 400 = [] := by
  constructor
  · intro minZ maxZ raw hlen
    unfold parseProbLine
    by_cases hskip : pyStrip raw = "" ∨ pyStartsWith (pyStrip raw) '#' = true
    · rw [if_pos (by simpa using hskip)]
    · rw [if_neg (by simpa using hskip)]
      rcases hs : splitWs (pyStrip raw) with _ | ⟨a, _ | ⟨b, _ | ⟨c, _ | ⟨d, _ | ⟨e, t⟩⟩⟩⟩⟩ <;>
        first
          | rfl
          | (rw [hs] at hlen; simp only [List.length_cons] at hlen; omega)
  · decide

/-- Witness for the C10 theorem: a concrete four-field line is rejected. -/
theorem parse_line_requires_five_fields_witness :
    (splitWs (pyStrip "100 0.5 0.6 350.0")).length < 5 ∧
      parseProbLine 300 400 "100 0.5 0.6 350.0" = none :=
  ⟨by decide,
    parse_line_requires_five_fields.1 300 400 "100 0.5 0.6 350.0" (by decide)⟩

/-- **C6** (confirmed). Every emitted colocalization pair has
`distance = |zdnaPosition − g4Position|`, non-negative and at most the
window; and the boundary is inclusive: any G4/Z-DNA rows on the same
chromosome whose positions differ by at most the window (in particular by
exactly the window) produce an emitted pair. -/
theorem analyze_colocalization_window_contract (g4Data : List G4Row)
    (zdnaData : List ZdnaRow) (window : Int) :
    (∀ p ∈ analyze_colocalization g4Data zdnaData window,
        p.distance = |p.zdnaPosition - p.g4Position| ∧
          0 ≤ p.distance ∧ p.distance ≤ window) ∧
      (∀ g ∈ g4Data, ∀ z ∈ zdnaData, z.chromosome = g.chromosome →
        |z.position - g.position| ≤ window →
          mkColocPair g z ∈ analyze_colocalization g4Data zdnaData window) := by
  unfold analyze_colocalization
  by_cases hempty : zdnaData.isEmpty || g4Data.isEmpty
  · rw [if_pos hempty]
    constructor
    · intro p hp
      simp at hp
    · intro g hg z hz _ _
      rcases (by simpa using hempty :
          zdnaData.isEmpty = true ∨ g4Data.isEmpty = true) with h | h
      · exact absurd (List.isEmpty_iff.mp h ▸ hz) (List.not_mem_nil z)
      · exact absurd (List.isEmpty_iff.mp h ▸ hg) (List.not_mem_nil g)
  · rw [if_neg hempty]
    constructor
    · intro p hp
      simp only [List.mem_flatMap, List.mem_map, List.mem_filter,
        Bool.and_eq_true, beq_iff_eq, decide_eq_true_eq] at hp
      rcases hp with ⟨g, _, z, ⟨_, _, hw⟩, rfl⟩
      exact ⟨rfl, abs_nonneg _, hw⟩
    · intro g hg z hz hchr hw
      simp only [List.mem_flatMap, List.mem_map, List.mem_filter,
        Bool.and_eq_true, beq_iff_eq, decide_eq_true_eq]
      exact ⟨g, hg, z, ⟨hz, hchr, hw⟩, rfl⟩

/-- Witness for the C6 theorem: a pair at distance exactly the window
(1000) is emitted. -/
theorem analyze_colocalization_window_contract_witness :
    mkColocPair ⟨"chr2L", 100, "GGG"⟩ ⟨"chr2L", 1100, "CG", 320⟩ ∈
      analyze_colocalization [⟨"chr2L", 100, "GGG"⟩]
        [⟨"chr2L", 1100, "CG", 320⟩] 1000 :=
  (analyze_colocalization_window_contract _ _ 1000).2
    _ (List.mem_singleton_self _) _ (List.mem_singleton_self _) rfl (by decide)

/-- **C9** (confirmed). When the input holds two records with the same
header identifier, the returned mapping binds that identifier exactly
once — to the file whose content is the LATER record's sequence; the
earlier record's content has been overwritten and is absent. -/
theorem split_duplicate_header_last_wins
    (l1 l2 l3 l4 chrName outputDir : String)
    (h1 : pyStartsWith (pyStrip l1) '>' = true)
    (h1n : splitWs ((pyStrip l1).drop 1) = [chrName])
    (h2 : pyStartsWith (pyStrip l2) '>' = false)
    (h3 : pyStartsWith (pyStrip l3) '>' = true)
    (h3n : splitWs ((pyStrip l3).drop 1) = [chrName])
    (h4 : pyStartsWith (pyStrip l4) '>' = false) :
    split_genome_by_chromosome [l1, l2, l3, l4] outputDir =
      Except.ok ⟨[(fastaPath outputDir chrName,
                    ">" ++ chrName ++ "\n" ++ String.join [pyStrip l4] ++ "\n")],
                 [(chrName, fastaPath outputDir chrName)]⟩ := by
  unfold split_genome_by_chromosome
  simp only [splitLines, splitStep, writeCurrent, h1, h1n, h2, h3, h3n, h4,
    Bool.false_eq_true, if_false, if_true, dictInsert]
  simp [dictInsert]
  rfl

/-- Witness for the C9 theorem on a concrete duplicated-header input. -/
theorem split_duplicate_header_last_wins_witness :
    split_genome_by_chromosome [">chr2L", "ACGT", ">chr2L", "TTTT"]
        "z_hunt_results" =
      Except.ok ⟨[(fastaPath "z_hunt_results" "chr2L",
                    ">" ++ "chr2L" ++ "\n" ++ String.join [pyStrip "TTTT"] ++ "\n")],
                 [("chr2L", fastaPath "z_hunt_results" "chr2L")]⟩ :=
  split_duplicate_header_last_wins ">chr2L" "ACGT" ">chr2L" "TTTT" "chr2L"
    "z_hunt_results" (by decide) (by decide) (by decide) (by decide)
    (by decide) (by decide)

/-- A leading-count never exceeds the list length. -/
theorem countLeading_le (p : Char → Bool) : ∀ s : List Char,
    countLeading p s ≤ s.length := by
  intro s
  induction s with
  | nil => simp [countLeading]
  | cons c t ih =>
      simp only [countLeading, List.length_cons]
      split <;> omega

/-- Elements of `descLens lo hi` are at most `hi`. -/
theorem descLens_le {lo hi i : Nat} (h : i ∈ descLens lo hi) : i ≤ hi := by
  simp only [descLens, List.mem_map, List.mem_range] at h
  obtain ⟨j, _, rfl⟩ := h
  omega

/-- A pattern element's maximal take never exceeds the suffix length. -/
theorem patElem_hi_le (e : PatElem) (s : List Char) : e.hi s ≤ s.length := by
  cases e with
  | gRun k => exact countLeading_le _ s
  | loop m => exact le_trans (Nat.min_le_right _ _) (countLeading_le _ s)

/-- A successful match consumes at most the whole suffix. -/
theorem tryMatch_le_length : ∀ (pat : List PatElem) (s : List Char) (n : Nat),
    tryMatch pat s = some n → n ≤ s.length := by
  intro pat
  induction pat with
  | nil =>
      intro s n h
      simp only [tryMatch, Option.some.injEq] at h
      omega
  | cons e rest ih =>
      intro s n h
      simp only [tryMatch] at h
      obtain ⟨i, hi, hfi⟩ := List.exists_of_findSome?_eq_some h
      by_cases hlo : e.lo ≤ i
      · rw [if_pos hlo] at hfi
        obtain ⟨n', hn', rfl⟩ := Option.map_eq_some'.mp hfi
        have h1 : n' ≤ (s.drop i).length := ih _ _ hn'
        have h2 : i ≤ e.hi s := descLens_le hi
        have h3 : e.hi s ≤ s.length := patElem_hi_le e s
        simp only [List.length_drop] at h1
        omega
      · rw [if_neg hlo] at hfi
        exact absurd hfi (Option.noConfusion)

/-- A match of a pattern that begins with `G{k,}` consumes at least `k`
characters. -/
theorem tryMatch_gRun_le {k : Nat} {rest : List PatElem} {s : List Char}
    {n : Nat} (h : tryMatch (PatElem.gRun k :: rest) s = some n) : k ≤ n := by
  simp only [tryMatch] at h
  obtain ⟨i, _, hfi⟩ := List.exists_of_findSome?_eq_some h
  by_cases hlo : (PatElem.gRun k).lo ≤ i
  · rw [if_pos hlo] at hfi
    obtain ⟨n', _, rfl⟩ := Option.map_eq_some'.mp hfi
    simp only [PatElem.lo] at hlo
    omega
  · rw [if_neg hlo] at hfi
    exact absurd hfi (Option.noConfusion)

/-- Every match triple `(start, stop, text)` produced by `finditer` comes
from a successful `tryMatch` on some suffix: the span length is the match
length and the text is the matched prefix of that suffix. -/
theorem finditer_mem (pat : List PatElem) (s : List Char) (p : Nat) :
    ∀ m ∈ finditer pat s p, ∃ s' n, tryMatch pat s' = some n ∧
      m.2.1 = m.1 + n ∧ m.2.2 = s'.take n := by
  induction s, p using finditer.induct pat with
  | case1 p val htm =>
      intro m hm
      rw [finditer, htm] at hm
      simp only [List.mem_singleton] at hm
      subst hm
      have hle := tryMatch_le_length pat [] val htm
      simp only [List.length_nil, Nat.le_zero] at hle
      subst hle
      exact ⟨[], 0, htm, by simp, by simp⟩
  | case2 p htm =>
      intro m hm
      rw [finditer, htm] at hm
      simp at hm
  | case3 p c t htm ih =>
      intro m hm
      rw [finditer, htm] at hm
      rcases List.mem_cons.mp hm with rfl | hm'
      · exact ⟨c :: t, 0, htm, by simp, by simp⟩
      · exact ih m hm'
  | case4 p c t n htm ih =>
      intro m hm
      rw [finditer, htm] at hm
      rcases List.mem_cons.mp hm with rfl | hm'
      · exact ⟨c :: t, n + 1, htm, rfl, rfl⟩
      · exact ih m hm'
  | case5 p c t htm ih =>
      intro m hm
      rw [finditer, htm] at hm
      exact ih m hm

/-- Every pattern built by `find_gquadruplex_patterns` begins with a
`G{k,}` run element with `k` at least the minimum run length. -/
theorem pattern_head (minRunLength maxLoopLength : Nat) :
    ∀ pk ∈ find_gquadruplex_patterns minRunLength maxLoopLength,
      ∃ k rest, minRunLength ≤ k ∧ pk.1 = PatElem.gRun k :: rest := by
  intro pk hpk
  simp only [find_gquadruplex_patterns, List.mem_map, List.mem_range'] at hpk
  obtain ⟨k, ⟨i, _, rfl⟩, rfl⟩ := hpk
  exact ⟨minRunLength + 1 * i, _, by omega, rfl⟩

/-- **C8** (confirmed). Every candidate produced by the scanner has
`0 ≤ start < end` and matched-text length equal to `end − start`. -/
theorem search_candidates_wellformed (seq : List Char)
    (chromosomeName : String) (minRunLength maxLoopLength : Nat)
    (hmin : 1 ≤ minRunLength) (c : GQuadCandidate)
    (hc : c ∈ search_quadruplexes_in_sequence seq
      (find_gquadruplex_patterns minRunLength maxLoopLength) chromosomeName) :
    0 ≤ c.start ∧ c.start < c.stop ∧
      c.sequence.length = c.stop - c.start := by
  unfold search_quadruplexes_in_sequence at hc
  simp only [List.mem_flatMap, List.mem_map] at hc
  obtain ⟨pk, hpk, m, hm, rfl⟩ := hc
  obtain ⟨k, rest, hk, hpat⟩ := pattern_head _ _ pk hpk
  obtain ⟨s', n, htm, hen, htxt⟩ := finditer_mem pk.1 _ 0 m hm
  rw [hpat] at htm
  have hkn : k ≤ n := tryMatch_gRun_le htm
  have hle : n ≤ s'.length := tryMatch_le_length _ _ _ htm
  refine ⟨Nat.zero_le _, ?_, ?_⟩
  · simp only [hen]
    omega
  · simp only [htxt, hen, List.length_take]
    omega

/-- Witness for the C8 theorem: the scanner output on
`"GGGAGGGAGGGAGGG"` contains the full-string candidate, which satisfies
the bounds. -/
theorem search_candidates_wellformed_witness :
    0 ≤ (0 : Nat) ∧ (0 : Nat) < 15 ∧
      "GGGAGGGAGGGAGGG".toList.length = 15 - 0 := by
  have hc : (⟨"chr2L", 0, 15, 15, "GGGAGGGAGGGAGGG".toList, 3,
      (12 : ℚ)/15, (12 : ℚ)/15, 135⟩ : GQuadCandidate) ∈
      search_quadruplexes_in_sequence "GGGAGGGAGGGAGGG".toList
        (find_gquadruplex_patterns 3 7) "chr2L" := by
    with_unfolding_all decide
  exact search_candidates_wellformed "GGGAGGGAGGGAGGG".toList "chr2L" 3 7
    (by decide) _ hc

/-- Run extraction only depends on the predicate's values on the list. -/
theorem runsAux_congr (p q : Char → Bool) : ∀ (l : List Char) (cur : Nat),
    (∀ c ∈ l, p c = q c) → runsAux p l cur = runsAux q l cur := by
  intro l
  induction l with
  | nil => intro cur _; rfl
  | cons c t ih =>
      intro cur h
      have hc : p c = q c := h c (List.mem_cons_self c t)
      have ht : ∀ d ∈ t, p d = q d := fun d hd => h d (List.mem_cons_of_mem c hd)
      simp only [runsAux, hc]
      cases q c <;> simp only [Bool.false_eq_true, if_false, if_true]
      · split <;> rw [ih _ ht]
      · rw [ih _ ht]

set_option maxRecDepth 8000 in
/-- **C4** counterexample: on the scanner-matchable span
`GGGAAANAAAGGGAAANAAAGGGAAANAAAGGG` the source score (91.36) differs from
the claimed formula's score (73.09): the claimed formula counts the
ambiguity code `N` toward the non-G stretches, merging each `AAANAAA`
into one length-7 stretch (average 7 > 5, so the 0.8 penalty fires),
while the source's `[ATC]+` stretches are six `AAA` runs (average 3, no
penalty).  The span is itself produced by the scanner, so the claim fails
on a real matched text. -/
theorem gquad_score_claimed_counterexample :
    calculate_gquad_score "GGGAAANAAAGGGAAANAAAGGGAAANAAAGGG".toList ≠
        gquad_score_claimed "GGGAAANAAAGGGAAANAAAGGGAAANAAAGGG".toList ∧
      (⟨"chr2L", 0, 33, 33, "GGGAAANAAAGGGAAANAAAGGGAAANAAAGGG".toList, 3,
          (12 : ℚ)/33, (12 : ℚ)/33,
          calculate_gquad_score "GGGAAANAAAGGGAAANAAAGGGAAANAAAGGG".toList⟩ :
            GQuadCandidate) ∈
        search_quadruplexes_in_sequence
          "GGGAAANAAAGGGAAANAAAGGGAAANAAAGGG".toList
          (find_gquadruplex_patterns 3 7) "chr2L" := by
  constructor
  · with_unfolding_all decide
  · with_unfolding_all decide

/-- **C4** amended (the claim with the one forced change): for every text
over the scanner's alphabet `{A,C,G,T,N}`, the source score follows the
claimed formula EXCEPT that the penalty's "non-G stretches" are the
maximal runs of characters that are neither `G` nor `N` — the ambiguity
code counts toward the length but neither toward G-runs nor toward non-G
stretches. -/
theorem gquad_score_eq_amended (s : List Char)
    (h : ∀ c ∈ s, c ∈ (['A', 'C', 'G', 'T', 'N'] : List Char)) :
    calculate_gquad_score s = gquad_score_amended s := by
  have hruns : runsOf (fun c => c = 'A' || c = 'T' || c = 'C') s =
      runsOf (fun c => !(c = 'G') && !(c = 'N')) s := by
    unfold runsOf
    apply runsAux_congr
    intro c hc
    have := h c hc
    simp only [List.mem_cons, List.not_mem_nil, or_false] at this
    rcases this with rfl | rfl | rfl | rfl | rfl <;> rfl
  unfold calculate_gquad_score gquad_score_amended
  rw [hruns]

/-- Witness for the amended C4 theorem on a concrete alphabet-conforming
text. -/
theorem gquad_score_eq_amended_witness :
    calculate_gquad_score "GGGAAANAAAGGGAAANAAAGGGAAANAAAGGG".toList =
      gquad_score_amended "GGGAAANAAAGGGAAANAAAGGGAAANAAAGGG".toList :=
  gquad_score_eq_amended "GGGAAANAAAGGGAAANAAAGGGAAANAAAGGG".toList
    (by decide)

end DnaAnalysis
